import Mathlib

/-!
Verification of the miniflux format-parsing and normalization layer and of
the asset-bundle generator, by shallow embedding of the Go sources.
Components whose Go bodies live outside the excerpted files (Transform,
LocalizedError, CharsetReader, the lenient XML entity handling) are
modelled from the specification; their doc comments say so explicitly.
-/

/-- UTF-8 encoding of one character as its byte sequence (values 0..255).
Mirrors Go's string-to-byte view of a string, as used by `[]byte(s)`. -/
def utf8EncodeChar (c : Char) : List Nat :=
  let n := c.toNat
  if n < 128 then [n]
  else if n < 2048 then [192 + n / 64, 128 + n % 64]
  else if n < 65536 then [224 + n / 4096, 128 + (n / 64) % 64, 128 + n % 64]
  else [240 + n / 262144, 128 + (n / 4096) % 64, 128 + (n / 64) % 64, 128 + n % 64]

/-- The raw bytes of a string, mirroring Go's `[]byte(s)` conversion. -/
def strToBytes (s : String) : List Nat :=
  (s.data.map utf8EncodeChar).flatten

/-- Truncation to a 32-bit word, making overflow of Go `uint32` explicit. -/
def w32 (n : Nat) : Nat := n % 4294967296

/-- 32-bit right rotation, in arithmetic form (input assumed below 2^32). -/
def rotr (n x : Nat) : Nat := x / 2 ^ n + x % 2 ^ n * 2 ^ (32 - n)

/-- SHA-256 choice function. -/
def sha256Ch (x y z : Nat) : Nat := (x &&& y) ^^^ ((4294967295 - x) &&& z)

/-- SHA-256 majority function. -/
def sha256Maj (x y z : Nat) : Nat := (x &&& y) ^^^ (x &&& z) ^^^ (y &&& z)

/-- SHA-256 big sigma 0. -/
def sha256S0 (x : Nat) : Nat := rotr 2 x ^^^ rotr 13 x ^^^ rotr 22 x

/-- SHA-256 big sigma 1. -/
def sha256S1 (x : Nat) : Nat := rotr 6 x ^^^ rotr 11 x ^^^ rotr 25 x

/-- SHA-256 small sigma 0. -/
def sha256s0 (x : Nat) : Nat := rotr 7 x ^^^ rotr 18 x ^^^ x / 8

/-- SHA-256 small sigma 1. -/
def sha256s1 (x : Nat) : Nat := rotr 17 x ^^^ rotr 19 x ^^^ x / 1024

/-- The SHA-256 round constants (FIPS 180-4), in decimal. -/
def sha256K : List Nat :=
  [1116352408, 1899447441, 3049323471, 3921009573, 961987163, 1508970993,
   2453635748, 2870763221, 3624381080, 310598401, 607225278, 1426881987,
   1925078388, 2162078206, 2614888103, 3248222580, 3835390401, 4022224774,
   264347078, 604807628, 770255983, 1249150122, 1555081692, 1996064986,
   2554220882, 2821834349, 2952996808, 3210313671, 3336571891, 3584528711,
   113926993, 338241895, 666307205, 773529912, 1294757372, 1396182291,
   1695183700, 1986661051, 2177026350, 2456956037, 2730485921, 2820302411,
   3259730800, 3345764771, 3516065817, 3600352804, 4094571909, 275423344,
   430227734, 506948616, 659060556, 883997877, 958139571, 1322822218,
   1537002063, 1747873779, 1955562222, 2024104815, 2227730452, 2361852424,
   2428436474, 2756734187, 3204031479, 3329325298]

/-- The SHA-256 initial hash state (FIPS 180-4), in decimal. -/
def sha256H0 : List Nat :=
  [1779033703, 3144134277, 1013904242, 2773480762,
   1359893119, 2600822924, 528734635, 1541459225]

/-- Big-endian byte serialization of `v` on `k` bytes. -/
def beBytes (k v : Nat) : List Nat :=
  (List.range k).map (fun i => v / 2 ^ (8 * (k - 1 - i)) % 256)

/-- SHA-256 message padding: a 1 bit, zeros, then the 64-bit bit length. -/
def sha256Pad (msg : List Nat) : List Nat :=
  let n := msg.length
  msg ++ [128] ++ List.replicate ((119 - n % 64) % 64) 0 ++ beBytes 8 (n * 8)

/-- Split a byte list into 64-byte blocks, with fuel bounded by the list
length (each step consumes at least one byte). -/
def toBlocksAux : Nat → List Nat → List (List Nat)
  | 0, _ => []
  | _ + 1, [] => []
  | fuel + 1, l => l.take 64 :: toBlocksAux fuel (l.drop 64)

/-- Split a byte list into 64-byte blocks. -/
def toBlocks (l : List Nat) : List (List Nat) := toBlocksAux l.length l

/-- Read the sixteen initial 32-bit schedule words out of a 64-byte block. -/
def blockWords (block : List Nat) : List Nat :=
  (List.range 16).map (fun i =>
    block.getD (4 * i) 0 * 16777216 + block.getD (4 * i + 1) 0 * 65536 +
    block.getD (4 * i + 2) 0 * 256 + block.getD (4 * i + 3) 0)

/-- Extend the message schedule by `k` additional words. -/
def extendW (w : List Nat) : Nat → List Nat
  | 0 => w
  | k + 1 =>
    let t := w.length
    extendW (w ++ [w32 (sha256s1 (w.getD (t - 2) 0) + w.getD (t - 7) 0 +
      sha256s0 (w.getD (t - 15) 0) + w.getD (t - 16) 0)]) k

/-- One SHA-256 compression round, on the eight-word working state. -/
def sha256Round (st : List Nat) (kw : Nat × Nat) : List Nat :=
  let a := st.getD 0 0
  let b := st.getD 1 0
  let c := st.getD 2 0
  let d := st.getD 3 0
  let e := st.getD 4 0
  let f := st.getD 5 0
  let g := st.getD 6 0
  let h := st.getD 7 0
  let t1 := h + sha256S1 e + sha256Ch e f g + kw.1 + kw.2
  let t2 := sha256S0 a + sha256Maj a b c
  [w32 (t1 + t2), a, b, c, w32 (d + t1), e, f, g]

/-- SHA-256 compression of one 64-byte block into the running hash state. -/
def sha256Compress (hs : List Nat) (block : List Nat) : List Nat :=
  let w := extendW (blockWords block) 48
  let st := (sha256K.zip w).foldl sha256Round hs
  (hs.zip st).map (fun p => w32 (p.1 + p.2))

/-- SHA-256 of a byte sequence, as 32 digest bytes.
Mirrors Go's `crypto/sha256.Sum256`. -/
def sha256 (msg : List Nat) : List Nat :=
  (((toBlocks (sha256Pad msg)).foldl sha256Compress sha256H0).map (beBytes 4)).flatten

/-- One lowercase hexadecimal digit. -/
def hexDigit (n : Nat) : Char :=
  "0123456789abcdef".data.getD n '0'

/-- Lowercase hexadecimal rendering of a byte list, as produced by Go's
`fmt.Sprintf` with the hex verb on a byte array. -/
def hexOfBytes (bs : List Nat) : String :=
  String.mk (bs.foldr (fun b acc => hexDigit (b / 16) :: hexDigit (b % 16) :: acc) [])

/-- The generator's `checksum` helper: lowercase hex of the SHA-256 digest. -/
def checksum (data : List Nat) : String := hexOfBytes (sha256 data)

/-- The standard base64 alphabet. -/
def base64Chars : List Char :=
  "ABCDEFGHIJKLMNOPQRSTUVWXYZabcdefghijklmnopqrstuvwxyz0123456789+/".data

/-- Base64 digit lookup. -/
def b64char (n : Nat) : Char := base64Chars.getD n 'A'

/-- Standard base64 encoding with padding, mirroring Go's
`base64.StdEncoding.EncodeToString`. -/
def base64Encode : List Nat → List Char
  | [] => []
  | [b1] => [b64char (b1 / 4), b64char (b1 % 4 * 16), '=', '=']
  | [b1, b2] => [b64char (b1 / 4), b64char (b1 % 4 * 16 + b2 / 16), b64char (b2 % 16 * 4), '=']
  | b1 :: b2 :: b3 :: rest =>
    b64char (b1 / 4) :: b64char (b1 % 4 * 16 + b2 / 16) ::
    b64char (b2 % 16 * 4 + b3 / 64) :: b64char (b3 % 64) :: base64Encode rest

/-- Is a byte a UTF-8 continuation byte? -/
def isCont (b : Nat) : Bool := 128 ≤ b && b < 192

/-- Strict UTF-8 validity check of a byte list, with fuel bounded by the
list length (each step consumes at least one byte). -/
def utf8ValidAux : Nat → List Nat → Bool
  | 0, l => l.isEmpty
  | _ + 1, [] => true
  | fuel + 1, b :: bs =>
    if b < 128 then utf8ValidAux fuel bs
    else if 194 ≤ b && b < 224 then
      match bs with
      | b2 :: rest => isCont b2 && utf8ValidAux fuel rest
      | [] => false
    else if 224 ≤ b && b < 240 then
      match bs with
      | b2 :: b3 :: rest =>
        isCont b2 && isCont b3 &&
        (let v := (b - 224) * 4096 + (b2 - 128) * 64 + (b3 - 128)
         decide (2048 ≤ v) && !(decide (55296 ≤ v) && decide (v < 57344)) &&
         utf8ValidAux fuel rest)
      | _ => false
    else if 240 ≤ b && b < 245 then
      match bs with
      | b2 :: b3 :: b4 :: rest =>
        isCont b2 && isCont b3 && isCont b4 &&
        (let v := (b - 240) * 262144 + (b2 - 128) * 4096 + (b3 - 128) * 64 + (b4 - 128)
         decide (65536 ≤ v) && decide (v < 1114112) && utf8ValidAux fuel rest)
      | _ => false
    else false

/-- Strict UTF-8 validity of a byte list. -/
def utf8Valid (bs : List Nat) : Bool := utf8ValidAux bs.length bs

/-- The Unicode replacement character. -/
def replChar : Char := '�'

/-- Lossy UTF-8 decoding: invalid sequences become the replacement
character, so decoding never fails. Fuel is bounded by the list length. -/
def utf8DecodeAux : Nat → List Nat → List Char
  | 0, _ => []
  | _ + 1, [] => []
  | fuel + 1, b :: bs =>
    if b < 128 then Char.ofNat b :: utf8DecodeAux fuel bs
    else if 194 ≤ b && b < 224 then
      match bs with
      | b2 :: rest =>
        if isCont b2 then Char.ofNat ((b - 192) * 64 + (b2 - 128)) :: utf8DecodeAux fuel rest
        else replChar :: utf8DecodeAux fuel bs
      | [] => [replChar]
    else if 224 ≤ b && b < 240 then
      match bs with
      | b2 :: b3 :: rest =>
        let v := (b - 224) * 4096 + (b2 - 128) * 64 + (b3 - 128)
        if isCont b2 && isCont b3 && decide (2048 ≤ v) &&
            !(decide (55296 ≤ v) && decide (v < 57344)) then
          Char.ofNat v :: utf8DecodeAux fuel rest
        else replChar :: utf8DecodeAux fuel bs
      | _ => replChar :: utf8DecodeAux fuel bs
    else if 240 ≤ b && b < 245 then
      match bs with
      | b2 :: b3 :: b4 :: rest =>
        let v := (b - 240) * 262144 + (b2 - 128) * 4096 + (b3 - 128) * 64 + (b4 - 128)
        if isCont b2 && isCont b3 && isCont b4 && decide (65536 ≤ v) &&
            decide (v < 1114112) then
          Char.ofNat v :: utf8DecodeAux fuel rest
        else replChar :: utf8DecodeAux fuel bs
      | _ => replChar :: utf8DecodeAux fuel bs
    else replChar :: utf8DecodeAux fuel bs

/-- Failure type of a charset reader, mirroring the error result slot of
Go's `xml.Decoder.CharsetReader` hook. -/
inductive CharsetError where
  | unsupported (name : String)
deriving DecidableEq, Repr

/-- Charsets the resolver decodes directly. -/
def knownCharsets : List String := ["utf-8", "us-ascii", "iso-8859-1", "windows-1252"]

/-- The fallback charset when detection is inconclusive. -/
def defaultCharset : String := "iso-8859-1"

/-- Decode bytes under a chosen charset; single-byte charsets map each byte
to the corresponding code point, UTF-8 decodes lossily. -/
def decodeWith (cs : String) (bs : List Nat) : String :=
  if cs = "utf-8" then String.mk (utf8DecodeAux bs.length bs)
  else String.mk (bs.map (fun b => Char.ofNat (b % 256)))

/-- Modelled from the spec: `miniflux.app/reader/encoding.CharsetReader`
(installed on the decoder in both Parse functions; its Go body is not in
the excerpt). Picks the declared charset when it is known and consistent
with the bytes, otherwise a detected or default charset, and always
returns a decoded text stream rather than an error. -/
def charsetReader (hint : Option String) (bs : List Nat) : Except CharsetError String :=
  let cs :=
    match hint with
    | some h0 =>
      let h := h0.toLower
      if knownCharsets.contains h then
        if h = "utf-8" && !utf8Valid bs then defaultCharset else h
      else if utf8Valid bs then "utf-8" else defaultCharset
    | none => if utf8Valid bs then "utf-8" else defaultCharset
  Except.ok (decodeWith cs bs)

/-- A decode failure of the lenient structural decoder. -/
inductive DecodeError where
  | undeclaredEntity (name : String)
  | malformed (msg : String)
  | encodingFailure
deriving DecidableEq, Repr

/-- Modelled from the spec: `miniflux.app/errors.LocalizedError` and
`errors.NewLocalizedError` (the errors package is not in the excerpt).
A message-format key plus the wrapped underlying cause. -/
structure LocalizedError where
  key : String
  cause : DecodeError
deriving DecidableEq, Repr

/-- A lexical chunk of markup text: plain text or an entity reference. -/
inductive XChunk where
  | text (s : String)
  | entity (name : String)
deriving DecidableEq, Repr

/-- First-match association-list lookup. -/
def lookupTable (t : List (String × String)) (n : String) : Option String :=
  match t with
  | [] => none
  | (k, v) :: r => if k = n then some v else lookupTable r n

/-- Entity substitution of the lenient decoder, modelled from the spec and
from `decoder.Entity = xml.HTMLEntity` in both Parse functions: each
reference is replaced by a single non-recursive lookup in a fixed table
(inserted replacement text is never rescanned), and a reference absent
from the table is a decode error. -/
def expandEntities (table : List (String × String)) : List XChunk → Except DecodeError String
  | [] => Except.ok ""
  | XChunk.text s :: rest =>
    match expandEntities table rest with
    | Except.ok out => Except.ok (s ++ out)
    | Except.error e => Except.error e
  | XChunk.entity n :: rest =>
    match lookupTable table n with
    | some v =>
      match expandEntities table rest with
      | Except.ok out => Except.ok (v ++ out)
      | Except.error e => Except.error e
    | none => Except.error (DecodeError.undeclaredEntity n)

/-- The entity names referenced by a chunk list. -/
def entityNames : List XChunk → List String
  | [] => []
  | XChunk.text _ :: rest => entityNames rest
  | XChunk.entity n :: rest => n :: entityNames rest

/-- The greatest replacement-text length in an entity table. -/
def tableMax (table : List (String × String)) : Nat :=
  table.foldr (fun p m => max p.2.length m) 0

/-- An a-priori bound on the length contributed by one chunk. -/
def chunkBound (table : List (String × String)) : XChunk → Nat
  | XChunk.text s => s.length
  | XChunk.entity _ => tableMax table

/-- An a-priori bound on the expanded length of a whole chunk list: total
text length plus one maximal replacement per entity reference. -/
def docBound (table : List (String × String)) (doc : List XChunk) : Nat :=
  (doc.map (chunkBound table)).sum

/-- Modelled from the spec: the named-entity table `xml.HTMLEntity`
installed by both Parse functions, represented by the five XML predefined
entities plus representative HTML-only names; every replacement is plain
text, never a further reference. -/
def htmlEntity : List (String × String) :=
  [("lt", "<"), ("gt", ">"), ("amp", "&"), ("apos", "\x27"), ("quot", "\""),
   ("nbsp", " "), ("copy", "©"), ("reg", "®"), ("laquo", "«"),
   ("raquo", "»"), ("mdash", "—"), ("ndash", "–"), ("hellip", "…"),
   ("rsquo", "’"), ("lsquo", "‘"), ("ldquo", "“"), ("rdquo", "”"),
   ("eacute", "é"), ("egrave", "è"), ("agrave", "à"), ("uuml", "ü"),
   ("ouml", "ö"), ("auml", "ä"), ("szlig", "ß"), ("trade", "™")]

/-- Read an entity name terminated by a semicolon; returns the name and
the remaining characters, or none when no semicolon follows. -/
def splitEntity : List Char → Option (String × List Char)
  | [] => none
  | c :: cs =>
    if c = ';' then some ("", cs)
    else
      match splitEntity cs with
      | some p => some (String.mk (c :: p.1.data), p.2)
      | none => none

/-- Tokenize markup text into text chunks and entity references, with fuel
bounded by the character count. -/
def tokenizeAux : Nat → List Char → List XChunk
  | 0, _ => []
  | _ + 1, [] => []
  | fuel + 1, c :: cs =>
    if c = '&' then
      match splitEntity cs with
      | some (name, rest) => XChunk.entity name :: tokenizeAux fuel rest
      | none => [XChunk.text (String.mk (c :: cs))]
    else
      match tokenizeAux fuel cs with
      | XChunk.text s :: rest => XChunk.text (String.mk (c :: s.data)) :: rest
      | chunks => XChunk.text (String.mk [c]) :: chunks

/-- Tokenize a whole decoded document text. -/
def tokenize (s : String) : List XChunk := tokenizeAux s.data.length s.data

/-- A raw input document: bytes plus an optional declared-encoding hint,
following the spec's RawDocument. -/
structure RawDocument where
  charsetHint : Option String
  bytes : List Nat
deriving DecidableEq, Repr

/-- The raw structural tree of one RSS item, mirroring the wire schema. -/
structure RawEntry where
  title : String
  url : String
  guid : String
  date : String
  content : String
deriving DecidableEq, Repr

/-- The raw structural tree of an RSS document (the `rssFeed` struct the
decoder fills), mirroring the wire schema. -/
structure RawFeed where
  title : String
  siteURL : String
  feedURL : String
  entries : List RawEntry
deriving DecidableEq, Repr

/-- A canonical entry of the normalized model. -/
structure Entry where
  hash : Nat
  title : String
  url : String
  content : String
  published : Nat
deriving DecidableEq, Repr

/-- The canonical feed of the normalized model (`model.Feed`). -/
structure Feed where
  title : String
  siteURL : String
  feedURL : String
  entries : List Entry
deriving DecidableEq, Repr

/-- A deterministic string hash standing for the identity-hash function
(a pure function of its input string). -/
def strHash (s : String) : Nat :=
  s.data.foldl (fun h c => (h * 31 + c.toNat) % 18446744073709551616) 5381

/-- Modelled from the spec: the identity hash of an entry — normalized
GUID if present, else the entry URL, else a hash of title plus date. -/
def entryHash (e : RawEntry) : Nat :=
  if e.guid ≠ "" then strHash e.guid
  else if e.url ≠ "" then strHash e.url
  else strHash (e.title ++ e.date)

/-- Modelled from the spec: the truncated content used as a default title
for an entry without one. -/
def truncateContent (s : String) : String := String.mk (s.data.take 100)

/-- Modelled from the spec: normalization of one entry. `pd` is the
multi-format date recognizer; an unparseable date falls back to the fetch
time `now` (the sole time dependence of the layer). -/
def transformEntry (pd : String → Option Nat) (now : Nat) (e : RawEntry) : Entry :=
  { hash := entryHash e
    title := if e.title ≠ "" then e.title else truncateContent e.content
    url := e.url
    content := e.content
    published :=
      match pd e.date with
      | some t => t
      | none => now }

/-- Modelled from the spec: `rssFeed.Transform` — a total normalization of
the raw tree into the canonical feed, defaulting the feed URL when absent
and the feed title to the feed URL when absent. -/
def rssTransform (pd : String → Option Nat) (now : Nat) (r : RawFeed) : Feed :=
  let furl :=
    if r.feedURL ≠ "" then r.feedURL
    else if r.siteURL ≠ "" then r.siteURL
    else "about:invalid"
  { title := if r.title ≠ "" then r.title else furl
    siteURL := r.siteURL
    feedURL := furl
    entries := r.entries.map (transformEntry pd now) }

mutual

/-- A raw OPML outline node: attributes `text`, `title`, `xmlUrl`,
`htmlUrl`, `type`, plus nested child outlines. -/
inductive Outline where
  | node (text title xmlUrl htmlUrl otype : String) (children : OutlineList)

/-- A sequence of sibling outlines, mirrored as a mutual inductive so that
recursion over the tree is structural. -/
inductive OutlineList where
  | nil
  | cons (head : Outline) (tail : OutlineList)

end

/-- A flattened subscription: title, URLs and the category path of
ancestor folder titles, root to leaf. -/
structure Subscription where
  title : String
  feedURL : String
  siteURL : String
  categoryPath : List String
deriving DecidableEq, Repr

/-- The display title of an outline: its `title` attribute, else `text`. -/
def outlineTitle (text title : String) : String :=
  if title ≠ "" then title else text

mutual

/-- Modelled from the spec: the OPML flattener on one outline. An outline
without `xmlUrl` is a folder contributing its title to the category path
of everything below it; an outline with `xmlUrl` is a leaf subscription
carrying the accumulated path. -/
def flattenOutline (path : List String) : Outline → List Subscription
  | Outline.node text title xmlUrl htmlUrl _ children =>
    if xmlUrl = "" then flattenList (path ++ [outlineTitle text title]) children
    else [{ title := outlineTitle text title, feedURL := xmlUrl, siteURL := htmlUrl,
            categoryPath := path }]

/-- Modelled from the spec: the OPML flattener on sibling outlines, in
document order. -/
def flattenList (path : List String) : OutlineList → List Subscription
  | OutlineList.nil => []
  | OutlineList.cons o os => flattenOutline path o ++ flattenList path os

end

/-- Modelled from the spec: `opml.Transform` — flatten the outline tree
into the subscription list, starting from the empty category path. -/
def opmlTransform (doc : OutlineList) : List Subscription := flattenList [] doc

/-- The lenient structural decode pipeline shared by both Parse functions:
charset resolution, tokenization, entity substitution from the HTML table,
then schema-shaped unmarshalling `um` (Go's `encoding/xml` field mapping,
abstracted as a parameter). -/
def xmlDecode (um : String → Except DecodeError α) (doc : RawDocument) :
    Except DecodeError α :=
  match charsetReader doc.charsetHint doc.bytes with
  | Except.error _ => Except.error DecodeError.encodingFailure
  | Except.ok text =>
    match expandEntities htmlEntity (tokenize text) with
    | Except.error e => Except.error e
    | Except.ok expanded => um expanded

/-- The structural decode step of `rss.Parse`. -/
def rssDecode (um : String → Except DecodeError RawFeed) (doc : RawDocument) :
    Except DecodeError RawFeed :=
  xmlDecode um doc

/-- The structural decode step of `opml.Parse`. -/
def opmlDecode (um : String → Except DecodeError OutlineList) (doc : RawDocument) :
    Except DecodeError OutlineList :=
  xmlDecode um doc

/-- `rss.Parse` from src/reader/rss/parser.go: decode with the lenient
decoder; on failure wrap the cause in a LocalizedError with the RSS format
key, on success return the transformed feed with no error. -/
def rssParse (um : String → Except DecodeError RawFeed) (pd : String → Option Nat)
    (now : Nat) (doc : RawDocument) : Option Feed × Option LocalizedError :=
  match rssDecode um doc with
  | Except.error e => (none, some { key := "Unable to parse RSS feed: %q", cause := e })
  | Except.ok raw => (some (rssTransform pd now raw), none)

/-- `opml.Parse` from the opml parser source: decode with the lenient
decoder; on failure wrap the cause in a LocalizedError with the OPML
format key, on success return the transformed subscription list with no
error. -/
def opmlParse (um : String → Except DecodeError OutlineList) (doc : RawDocument) :
    Option (List Subscription) × Option LocalizedError :=
  match opmlDecode um doc with
  | Except.error e => (none, some { key := "Unable to parse OPML file: %q", cause := e })
  | Except.ok outlines => (some (opmlTransform outlines), none)

/-- Zero out the published timestamps of a feed, used to state
determinism up to the unknown-date sentinel. -/
def scrubFeed (f : Feed) : Feed :=
  { f with entries := f.entries.map (fun e => { e with published := 0 }) }

/-- An asset bundle as built by the generator: package metadata plus the
Files and Checksums maps (modelled as association lists keyed by the same
names in the same order). -/
structure Bundle where
  package : String
  map : String
  importPath : String
  files : List (String × String)
  checksums : List (String × String)
deriving DecidableEq, Repr

/-- First-match lookup in an association list. -/
def lookupAssoc (l : List (String × String)) (k : String) : Option String :=
  match l with
  | [] => none
  | (k2, v) :: r => if k2 = k then some v else lookupAssoc r k

/-- Concatenation of source-file contents (`concat` in the generator; file
reading itself is external I/O, so contents are taken as inputs). -/
def concatFiles (srcs : List String) : String :=
  srcs.foldl (fun acc s => acc ++ s) ""

/-- Lookup with a default, mirroring the generator's prefix and suffix
map accesses. -/
def lookupD (l : List (String × String)) (k : String) : String :=
  match lookupAssoc l k with
  | some v => v
  | none => ""

/-- `generateJSBundle`: per bundle name, wrap the concatenated sources in
the optional prelude and postlude, minify (the external minifier is a
parameter), store the minified text in Files and its checksum — computed
from exactly that stored text — in Checksums. -/
def generateJSBundle (minifyJS : String → String)
    (bundleFiles : List (String × List String))
    (prefixes suffixes : List (String × String)) : Bundle :=
  { package := "static", map := "Javascripts", importPath := "ui/static"
    files := bundleFiles.map (fun p =>
      (p.1, minifyJS (lookupD prefixes p.1 ++ concatFiles p.2 ++ lookupD suffixes p.1)))
    checksums := bundleFiles.map (fun p =>
      (p.1, checksum (strToBytes
        (minifyJS (lookupD prefixes p.1 ++ concatFiles p.2 ++ lookupD suffixes p.1))))) }

/-- `generateCSSBundle`: per theme, minify the concatenated sources, store
the minified text in Files and its checksum — computed from exactly that
stored text — in Checksums. -/
def generateCSSBundle (minifyCSS : String → String)
    (themes : List (String × List String)) : Bundle :=
  { package := "static", map := "Stylesheets", importPath := "ui/static"
    files := themes.map (fun p => (p.1, minifyCSS (concatFiles p.2)))
    checksums := themes.map (fun p => (p.1, checksum (strToBytes (minifyCSS (concatFiles p.2))))) }

/-- `generateBinaryBundle`: per file (basename paired with raw bytes),
store the base64 encoding of the bytes in Files but the checksum of the
raw, pre-encoding bytes in Checksums. -/
def generateBinaryBundle (srcFiles : List (String × List Nat)) : Bundle :=
  { package := "static", map := "Binaries", importPath := "ui/static"
    files := srcFiles.map (fun p => (p.1, String.mk (base64Encode p.2)))
    checksums := srcFiles.map (fun p => (p.1, checksum p.2)) }

/-- Prepend a category-path segment to a subscription's path. -/
def pathPrepend (p : List String) (s : Subscription) : Subscription :=
  { s with categoryPath := p ++ s.categoryPath }

/-- The spec's nested-folder OPML example: a feed under folder Tech, a
feed under Tech then Go, and a top-level feed. -/
def techGoDoc : OutlineList :=
  OutlineList.cons
    (Outline.node "Tech" "" "" "" ""
      (OutlineList.cons (Outline.node "Tech feed" "" "http://tech/feed" "http://tech" "rss"
          OutlineList.nil)
        (OutlineList.cons
          (Outline.node "Go" "" "" "" ""
            (OutlineList.cons (Outline.node "Go feed" "" "http://go/feed" "http://go" "rss"
                OutlineList.nil)
              OutlineList.nil))
          OutlineList.nil)))
    (OutlineList.cons (Outline.node "Top feed" "" "http://top/feed" "http://top" "rss"
        OutlineList.nil)
      OutlineList.nil)

/-- An entity-expansion-bomb document: markup referencing a custom entity
that no fixed table declares. -/
def bombDoc : RawDocument :=
  { charsetHint := none, bytes := strToBytes "<x>&lol9;</x>" }

/-- A document using the HTML-only named entity nbsp inside strict XML. -/
def nbspDoc : RawDocument :=
  { charsetHint := none, bytes := strToBytes "<t>&nbsp;</t>" }

/-- First key-match in a keyed list, returning the whole pair. -/
def findPair {γ : Type} (l : List (String × γ)) (k : String) : Option (String × γ) :=
  match l with
  | [] => none
  | p :: r => if p.1 = k then some p else findPair r k

/-- Claim C1: for every input, `rss.Parse` returns exactly one of its two
results non-nil — a nil feed with a non-nil LocalizedError on decode
failure, a non-nil feed with a nil error on success — and likewise
`opml.Parse` for the subscription list. -/
theorem c1_parse_exactly_one_result :
    (∀ um pd now doc,
      ((rssParse um pd now doc).1.isSome = true ∧ (rssParse um pd now doc).2 = none) ∨
      ((rssParse um pd now doc).1 = none ∧ (rssParse um pd now doc).2.isSome = true)) ∧
    (∀ um doc,
      ((opmlParse um doc).1.isSome = true ∧ (opmlParse um doc).2 = none) ∨
      ((opmlParse um doc).1 = none ∧ (opmlParse um doc).2.isSome = true)) := by
  constructor
  · intro um pd now doc
    unfold rssParse
    cases rssDecode um doc <;> simp
  · intro um doc
    unfold opmlParse
    cases opmlDecode um doc <;> simp

/-- Claim C4: whenever the structural decode succeeds, Parse returns the
result of Transform with a nil error, unconditionally, for both parsers;
Transform is total, so no missing-but-optional field can fail it. -/
theorem c4_transform_never_fails :
    (∀ um pd now doc raw, rssDecode um doc = Except.ok raw →
      rssParse um pd now doc = (some (rssTransform pd now raw), none)) ∧
    (∀ um doc outlines, opmlDecode um doc = Except.ok outlines →
      opmlParse um doc = (some (opmlTransform outlines), none)) := by
  constructor
  · intro um pd now doc raw h
    unfold rssParse
    rw [h]
  · intro um doc outlines h
    unfold opmlParse
    rw [h]

/-- Witness for C4 at a concrete successful decode of each format. -/
theorem c4_transform_never_fails_witness :
    rssParse (fun _ => Except.ok (RawFeed.mk "T" "s" "f" [])) (fun _ => none) 0
        { charsetHint := none, bytes := [] } =
      (some (rssTransform (fun _ => none) 0 (RawFeed.mk "T" "s" "f" [])), none) ∧
    opmlParse (fun _ => Except.ok OutlineList.nil) { charsetHint := none, bytes := [] } =
      (some (opmlTransform OutlineList.nil), none) := by
  constructor
  · exact c4_transform_never_fails.1 (fun _ => Except.ok (RawFeed.mk "T" "s" "f" []))
      (fun _ => none) 0 { charsetHint := none, bytes := [] } (RawFeed.mk "T" "s" "f" []) rfl
  · exact c4_transform_never_fails.2 (fun _ => Except.ok OutlineList.nil)
      { charsetHint := none, bytes := [] } OutlineList.nil rfl

/-- Claim C5: every decode failure is returned as a LocalizedError whose
key is the parser's message-format string and whose cause is exactly the
underlying decoder error — the original error is never discarded. -/
theorem c5_error_wraps_cause :
    (∀ um pd now doc e, rssDecode um doc = Except.error e →
      rssParse um pd now doc =
        (none, some { key := "Unable to parse RSS feed: %q", cause := e })) ∧
    (∀ um doc e, opmlDecode um doc = Except.error e →
      opmlParse um doc =
        (none, some { key := "Unable to parse OPML file: %q", cause := e })) := by
  constructor
  · intro um pd now doc e h
    unfold rssParse
    rw [h]
  · intro um doc e h
    unfold opmlParse
    rw [h]

/-- Witness for C5 at a concrete failing decode of each format. -/
theorem c5_error_wraps_cause_witness :
    rssParse (fun _ => Except.error (DecodeError.malformed "eof")) (fun _ => none) 0
        { charsetHint := none, bytes := [] } =
      (none, some { key := "Unable to parse RSS feed: %q",
                    cause := DecodeError.malformed "eof" }) ∧
    opmlParse (fun _ => Except.error (DecodeError.malformed "eof"))
        { charsetHint := none, bytes := [] } =
      (none, some { key := "Unable to parse OPML file: %q",
                    cause := DecodeError.malformed "eof" }) := by
  constructor
  · exact c5_error_wraps_cause.1 (fun _ => Except.error (DecodeError.malformed "eof"))
      (fun _ => none) 0 { charsetHint := none, bytes := [] }
      (DecodeError.malformed "eof") rfl
  · exact c5_error_wraps_cause.2 (fun _ => Except.error (DecodeError.malformed "eof"))
      { charsetHint := none, bytes := [] } (DecodeError.malformed "eof") rfl

/-- Claim C7: the charset resolution step never fails outright — for every
declared-charset hint (absent, unknown, or inconsistent) and every byte
sequence it returns a decoded text stream, never an error. -/
theorem c7_charset_reader_total :
    ∀ hint bs, ∃ s, charsetReader hint bs = Except.ok s := by
  intro hint bs
  exact ⟨_, rfl⟩

theorem strLength_append (a b : String) : (a ++ b).length = a.length + b.length := by
  cases a with
  | mk da =>
    cases b with
    | mk db => simp [String.length, String.append]

theorem lookupTable_mem {t : List (String × String)} {n : String} {v : String}
    (h : lookupTable t n = some v) : (n, v) ∈ t := by
  induction t with
  | nil => simp [lookupTable] at h
  | cons p r ih =>
    obtain ⟨k, w⟩ := p
    by_cases hk : k = n
    · subst hk
      simp [lookupTable] at h
      subst h
      exact List.mem_cons_self _ _
    · simp [lookupTable, hk] at h
      exact List.mem_cons_of_mem _ (ih h)

theorem length_le_tableMax {t : List (String × String)} {n v : String}
    (h : (n, v) ∈ t) : v.length ≤ tableMax t := by
  induction t with
  | nil => simp at h
  | cons p r ih =>
    rcases List.mem_cons.mp h with h1 | h2
    · subst h1
      simp only [tableMax, List.foldr]
      exact le_max_left _ _
    · have := ih h2
      simp only [tableMax, List.foldr] at this ⊢
      omega

theorem expand_error_of_undeclared (table : List (String × String)) :
    ∀ doc : List XChunk, (∃ n, n ∈ entityNames doc ∧ lookupTable table n = none) →
      ∃ e, expandEntities table doc = Except.error e := by
  intro doc
  induction doc with
  | nil => rintro ⟨n, hn, _⟩; simp [entityNames] at hn
  | cons c rest ih =>
    rintro ⟨n, hn, hl⟩
    cases c with
    | text s =>
      simp only [entityNames] at hn
      obtain ⟨e, he⟩ := ih ⟨n, hn, hl⟩
      exact ⟨e, by simp [expandEntities, he]⟩
    | entity m =>
      by_cases hm : lookupTable table m = none
      · exact ⟨DecodeError.undeclaredEntity m, by simp [expandEntities, hm]⟩
      · obtain ⟨v, hv⟩ := Option.ne_none_iff_exists'.mp hm
        have hnm : n ≠ m := by
          intro h
          subst h
          rw [hl] at hv
          exact Option.noConfusion hv
        simp only [entityNames, List.mem_cons] at hn
        rcases hn with h | h
        · exact absurd h hnm
        · obtain ⟨e, he⟩ := ih ⟨n, h, hl⟩
          exact ⟨e, by simp [expandEntities, hv, he]⟩

theorem expand_ok_length_le (table : List (String × String)) :
    ∀ (doc : List XChunk) (out : String), expandEntities table doc = Except.ok out →
      out.length ≤ docBound table doc := by
  intro doc
  induction doc with
  | nil =>
    intro out h
    simp [expandEntities] at h
    subst h
    simp [docBound]
  | cons c rest ih =>
    intro out h
    cases c with
    | text s =>
      simp only [expandEntities] at h
      cases hr : expandEntities table rest with
      | error e => rw [hr] at h; exact Except.noConfusion h
      | ok out2 =>
        rw [hr] at h
        injection h with h
        subst h
        have := ih out2 hr
        simp only [docBound, List.map, List.sum_cons, chunkBound]
        rw [strLength_append]
        simp only [docBound] at this
        omega
    | entity m =>
      simp only [expandEntities] at h
      cases hl : lookupTable table m with
      | none => rw [hl] at h; exact Except.noConfusion h
      | some v =>
        rw [hl] at h
        cases hr : expandEntities table rest with
        | error e => rw [hr] at h; exact Except.noConfusion h
        | ok out2 =>
          rw [hr] at h
          injection h with h
          subst h
          have h1 := ih out2 hr
          have h2 := length_le_tableMax (lookupTable_mem hl)
          simp only [docBound, List.map, List.sum_cons, chunkBound]
          rw [strLength_append]
          simp only [docBound] at h1
          omega

/-- Claim C2: entity expansion is bounded — a document referencing any
entity outside the fixed table fails with a DecodeError (no recursive
custom-entity expansion exists at all), a successful expansion is bounded
linearly by the input text plus one maximal replacement per reference, and
a concrete billion-laughs-style document makes `rss.Parse` return a
wrapped DecodeError immediately. -/
theorem c2_entity_expansion_bounded :
    (∀ (table : List (String × String)) (doc : List XChunk),
      (∃ n, n ∈ entityNames doc ∧ lookupTable table n = none) →
      ∃ e, expandEntities table doc = Except.error e) ∧
    (∀ (table : List (String × String)) (doc : List XChunk) (out : String),
      expandEntities table doc = Except.ok out → out.length ≤ docBound table doc) ∧
    (∀ um pd now, rssParse um pd now bombDoc =
      (none, some { key := "Unable to parse RSS feed: %q",
                    cause := DecodeError.undeclaredEntity "lol9" })) := by
  refine ⟨fun table doc => expand_error_of_undeclared table doc,
          fun table doc => expand_ok_length_le table doc,
          fun um pd now => rfl⟩

/-- Witness for C2 at a concrete undeclared entity and a concrete
successful expansion. -/
theorem c2_entity_expansion_bounded_witness :
    (∃ e, expandEntities [] [XChunk.entity "lol1"] = Except.error e) ∧
    "ab".length ≤ docBound htmlEntity [XChunk.text "ab"] := by
  constructor
  · exact c2_entity_expansion_bounded.1 [] [XChunk.entity "lol1"]
      ⟨"lol1", by decide, rfl⟩
  · exact c2_entity_expansion_bounded.2.1 htmlEntity [XChunk.text "ab"] "ab" rfl

theorem expand_append (table : List (String × String)) :
    ∀ (d1 d2 : List XChunk) (o1 o2 : String),
      expandEntities table d1 = Except.ok o1 → expandEntities table d2 = Except.ok o2 →
      expandEntities table (d1 ++ d2) = Except.ok (o1 ++ o2) := by
  intro d1
  induction d1 with
  | nil =>
    intro d2 o1 o2 h1 h2
    simp only [expandEntities] at h1
    injection h1 with h1
    subst h1
    rw [List.nil_append, h2, String.empty_append]
  | cons c rest ih =>
    intro d2 o1 o2 h1 h2
    cases c with
    | text t =>
      simp only [expandEntities] at h1
      cases hr : expandEntities table rest with
      | error e => rw [hr] at h1; exact Except.noConfusion h1
      | ok out =>
        rw [hr] at h1
        injection h1 with h1
        subst h1
        have hrec := ih d2 out o2 hr h2
        simp only [List.cons_append, expandEntities, List.append_eq, hrec]
        rw [String.append_assoc]
    | entity n =>
      simp only [expandEntities] at h1
      cases hl : lookupTable table n with
      | none => rw [hl] at h1; exact Except.noConfusion h1
      | some v =>
        rw [hl] at h1
        cases hr : expandEntities table rest with
        | error e => rw [hr] at h1; exact Except.noConfusion h1
        | ok out =>
          rw [hr] at h1
          injection h1 with h1
          subst h1
          have hrec := ih d2 out o2 hr h2
          simp only [List.cons_append, expandEntities, List.append_eq, hl, hrec]
          rw [String.append_assoc]

theorem expand_ok_of_declared (table : List (String × String)) :
    ∀ doc : List XChunk, (∀ n ∈ entityNames doc, (lookupTable table n).isSome = true) →
      ∃ out, expandEntities table doc = Except.ok out := by
  intro doc
  induction doc with
  | nil => intro _; exact ⟨"", rfl⟩
  | cons c rest ih =>
    intro h
    cases c with
    | text t =>
      obtain ⟨out, hr⟩ := ih (fun n hn => h n hn)
      exact ⟨t ++ out, by simp only [expandEntities, hr]⟩
    | entity n =>
      have hn : (lookupTable table n).isSome = true :=
        h n (by simp [entityNames])
      obtain ⟨v, hv⟩ := Option.isSome_iff_exists.mp hn
      obtain ⟨out, hr⟩ := ih (fun m hm => h m (by simp [entityNames, hm]))
      exact ⟨v ++ out, by simp only [expandEntities, hv, hr]⟩

/-- Claim C3: a named entity that is undeclared in strict XML but present
in the HTML entity table is substituted from the table during decoding
instead of failing, for every table entry and every document — if every
referenced name of a document is declared, expansion succeeds; a declared
entity occurring anywhere in a document is replaced by exactly its table
value; and both parsers' decode pipelines on a concrete nbsp document
proceed to unmarshalling with the entity replaced by U+00A0. -/
theorem c3_html_entity_substitution :
    (∀ doc : List XChunk,
      (∀ n ∈ entityNames doc, (lookupTable htmlEntity n).isSome = true) →
      ∃ out, expandEntities htmlEntity doc = Except.ok out) ∧
    (∀ (table : List (String × String)) (name v : String) (d1 d2 : List XChunk)
        (o1 o2 : String),
      lookupTable table name = some v →
      expandEntities table d1 = Except.ok o1 →
      expandEntities table d2 = Except.ok o2 →
      expandEntities table (d1 ++ XChunk.entity name :: d2) = Except.ok (o1 ++ v ++ o2)) ∧
    (∀ um : String → Except DecodeError RawFeed,
      rssDecode um nbspDoc = um "<t>\u00A0</t>") ∧
    (∀ um : String → Except DecodeError OutlineList,
      opmlDecode um nbspDoc = um "<t>\u00A0</t>") := by
  refine ⟨fun doc h => expand_ok_of_declared htmlEntity doc h, ?_, fun um => rfl, fun um => rfl⟩
  intro table name v d1 d2 o1 o2 hl h1 h2
  have hmid : expandEntities table (XChunk.entity name :: d2) = Except.ok (v ++ o2) := by
    simp only [expandEntities, hl, h2]
  have := expand_append table d1 (XChunk.entity name :: d2) o1 (v ++ o2) h1 hmid
  rw [this, String.append_assoc]

/-- Witness for C3: a document referencing two distinct declared entities
expands successfully, and the table entry copy is substituted between
concrete text chunks. -/
theorem c3_html_entity_substitution_witness :
    (∃ out, expandEntities htmlEntity
      [XChunk.entity "nbsp", XChunk.text "x", XChunk.entity "amp"] = Except.ok out) ∧
    expandEntities htmlEntity
        [XChunk.text "a", XChunk.entity "copy", XChunk.text "b"] =
      Except.ok ("a" ++ "©" ++ "b") := by
  constructor
  · exact c3_html_entity_substitution.1
      [XChunk.entity "nbsp", XChunk.text "x", XChunk.entity "amp"] (by decide)
  · exact c3_html_entity_substitution.2.1 htmlEntity "copy" "©"
      [XChunk.text "a"] [XChunk.text "b"] "a" "b" (by decide) rfl rfl

theorem scrub_transform_time_free (pd : String → Option Nat) (t1 t2 : Nat) (raw : RawFeed) :
    scrubFeed (rssTransform pd t1 raw) = scrubFeed (rssTransform pd t2 raw) := by
  simp only [scrubFeed, rssTransform, List.map_map]
  congr 1

/-- Claim C6: byte-identical input yields identical output, up to the
unknown-date sentinel — two parses of the same document at different fetch
times return the same error and feeds equal after erasing published
timestamps, and when every entry date parses the feeds are fully equal;
nothing else depends on hidden state or the current time. -/
theorem c6_deterministic_up_to_sentinel :
    (∀ um pd t1 t2 doc,
      (rssParse um pd t1 doc).2 = (rssParse um pd t2 doc).2 ∧
      (rssParse um pd t1 doc).1.map scrubFeed = (rssParse um pd t2 doc).1.map scrubFeed) ∧
    (∀ pd t1 t2 raw, (∀ e ∈ raw.entries, (pd e.date).isSome = true) →
      rssTransform pd t1 raw = rssTransform pd t2 raw) := by
  constructor
  · intro um pd t1 t2 doc
    unfold rssParse
    cases rssDecode um doc with
    | error e => exact ⟨rfl, rfl⟩
    | ok raw => exact ⟨rfl, by simp [scrub_transform_time_free pd t1 t2 raw]⟩
  · intro pd t1 t2 raw h
    simp only [rssTransform]
    congr 1
    apply List.map_congr_left
    intro e he
    have hs := h e he
    simp only [transformEntry]
    cases hd : pd e.date with
    | none => rw [hd] at hs; simp at hs
    | some t => rfl

/-- Witness for C6 at a concrete feed whose single entry date parses. -/
theorem c6_deterministic_up_to_sentinel_witness :
    rssTransform (fun _ => some 5) 1 (RawFeed.mk "t" "s" "f" [RawEntry.mk "a" "u" "g" "d" "c"]) =
      rssTransform (fun _ => some 5) 2
        (RawFeed.mk "t" "s" "f" [RawEntry.mk "a" "u" "g" "d" "c"]) := by
  exact c6_deterministic_up_to_sentinel.2 (fun _ => some 5) 1 2
    (RawFeed.mk "t" "s" "f" [RawEntry.mk "a" "u" "g" "d" "c"]) (by decide)

/-- Claim C9: after normalization the feed title and feed URL are never
empty — absent fields are defaulted, the title defaulting to the feed
URL. -/
theorem c9_title_feedurl_nonempty :
    ∀ pd now raw,
      (rssTransform pd now raw).title ≠ "" ∧
      (rssTransform pd now raw).feedURL ≠ "" ∧
      (raw.title = "" →
        (rssTransform pd now raw).title = (rssTransform pd now raw).feedURL) := by
  intro pd now raw
  simp only [rssTransform]
  have hfurl :
      (if raw.feedURL ≠ "" then raw.feedURL
       else if raw.siteURL ≠ "" then raw.siteURL
       else "about:invalid") ≠ "" := by
    by_cases h1 : raw.feedURL = ""
    · by_cases h2 : raw.siteURL = ""
      · simp [h1, h2]
      · simp [h1, h2]
    · simp [h1]
  refine ⟨?_, hfurl, ?_⟩
  · by_cases ht : raw.title = ""
    · simp only [ht, ne_eq, not_true_eq_false, if_false]
      exact hfurl
    · simp [ht]
  · intro ht
    simp [ht]

/-- Witness for C9 at a concrete feed with an absent title. -/
theorem c9_title_feedurl_nonempty_witness :
    (rssTransform (fun _ => none) 0 (RawFeed.mk "" "s" "f" [])).title =
      (rssTransform (fun _ => none) 0 (RawFeed.mk "" "s" "f" [])).feedURL := by
  exact (c9_title_feedurl_nonempty (fun _ => none) 0 (RawFeed.mk "" "s" "f" [])).2.2 rfl

theorem pathPrepend_append (p q : List String) (s : Subscription) :
    pathPrepend (p ++ q) s = pathPrepend p (pathPrepend q s) := by
  simp [pathPrepend, List.append_assoc]

theorem flatten_prefix_aux :
    ∀ n : Nat, ∀ ol : OutlineList, sizeOf ol ≤ n →
      ∀ p, flattenList p ol = (flattenList [] ol).map (pathPrepend p) := by
  intro n
  induction n with
  | zero =>
    intro ol h p
    cases ol with
    | nil => simp [flattenList]
    | cons o os =>
      exfalso
      have hsz := OutlineList.cons.sizeOf_spec o os
      omega
  | succ n ih =>
    intro ol h p
    cases ol with
    | nil => simp [flattenList]
    | cons o os =>
      cases o with
      | node text title xmlUrl htmlUrl otype children =>
        have hsz := OutlineList.cons.sizeOf_spec
          (Outline.node text title xmlUrl htmlUrl otype children) os
        have hsz2 := Outline.node.sizeOf_spec text title xmlUrl htmlUrl otype children
        have hch : sizeOf children ≤ n := by omega
        have hos : sizeOf os ≤ n := by omega
        simp only [flattenList, flattenOutline]
        by_cases hx : xmlUrl = ""
        · rw [if_pos hx, if_pos hx]
          rw [List.map_append]
          rw [ih children hch (p ++ [outlineTitle text title])]
          rw [ih children hch ([] ++ [outlineTitle text title])]
          rw [ih os hos p]
          congr 1
          rw [List.map_map]
          apply List.map_congr_left
          intro s _
          rw [List.nil_append]
          exact pathPrepend_append p [outlineTitle text title] s
        · rw [if_neg hx, if_neg hx]
          rw [List.map_append]
          rw [ih os hos p]
          congr 1
          simp [pathPrepend]

/-- Claim C8: the OPML flattener emits subscriptions in document order,
each carrying the full category path of ancestor folder titles from root
to leaf — flattening below any accumulated path prepends that path to
every emitted subscription, and the spec's nested Tech and Go example
produces paths Tech, then Tech-Go, then the empty path, in document
order. -/
theorem c8_opml_flatten_category_paths :
    (∀ (p : List String) (ol : OutlineList),
      flattenList p ol = (flattenList [] ol).map (pathPrepend p)) ∧
    opmlTransform techGoDoc =
      [{ title := "Tech feed", feedURL := "http://tech/feed", siteURL := "http://tech",
         categoryPath := ["Tech"] },
       { title := "Go feed", feedURL := "http://go/feed", siteURL := "http://go",
         categoryPath := ["Tech", "Go"] },
       { title := "Top feed", feedURL := "http://top/feed", siteURL := "http://top",
         categoryPath := [] }] := by
  constructor
  · intro p ol
    exact flatten_prefix_aux (sizeOf ol) ol (le_refl _) p
  · rfl

theorem lookupAssoc_map {γ : Type} (l : List (String × γ)) (F : String × γ → String)
    (k : String) :
    lookupAssoc (l.map (fun p => (p.1, F p))) k = (findPair l k).map F := by
  induction l with
  | nil => rfl
  | cons p r ih =>
    by_cases h : p.1 = k
    · simp [lookupAssoc, findPair, h]
    · simp [lookupAssoc, findPair, h, ih]

theorem b64char_lt (n : Nat) : (b64char n).toNat < 128 := by
  unfold b64char
  rw [List.getD_eq_getElem?_getD]
  cases h : base64Chars[n]? with
  | none => simp
  | some c =>
    have hm : c ∈ base64Chars := List.getElem?_mem h
    have hall : ∀ x ∈ base64Chars, x.toNat < 128 := by decide
    simp only [h, Option.getD_some]
    exact hall c hm

theorem base64_ascii (d : List Nat) : ∀ c ∈ base64Encode d, c.toNat < 128 := by
  induction d using base64Encode.induct with
  | case1 =>
    intro c hc
    simp [base64Encode] at hc
  | case2 b1 =>
    intro c hc
    simp only [base64Encode, List.mem_cons, List.not_mem_nil, or_false] at hc
    rcases hc with h | h | h | h <;> subst h <;> first | exact b64char_lt _ | decide
  | case3 b1 b2 =>
    intro c hc
    simp only [base64Encode, List.mem_cons, List.not_mem_nil, or_false] at hc
    rcases hc with h | h | h | h <;> subst h <;> first | exact b64char_lt _ | decide
  | case4 b1 b2 b3 rest ih =>
    intro c hc
    simp only [base64Encode, List.mem_cons] at hc
    rcases hc with h | h | h | h | h
    · subst h; exact b64char_lt _
    · subst h; exact b64char_lt _
    · subst h; exact b64char_lt _
    · subst h; exact b64char_lt _
    · exact ih c h

theorem asciiBytes_length :
    ∀ cs : List Char, (∀ c ∈ cs, c.toNat < 128) →
      ((cs.map utf8EncodeChar).flatten).length = cs.length := by
  intro cs
  induction cs with
  | nil => intro _; rfl
  | cons a r ih =>
    intro h
    have ha : a.toNat < 128 := h a (List.mem_cons_self a r)
    have h1 : utf8EncodeChar a = [a.toNat] := by
      unfold utf8EncodeChar
      rw [if_pos ha]
    simp only [List.map_cons, List.flatten_cons, List.length_append, h1]
    rw [ih (fun c hc => h c (List.mem_cons_of_mem a hc))]
    simp only [List.length_cons, List.length_nil]
    omega

theorem base64_length (d : List Nat) :
    (base64Encode d).length = 4 * ((d.length + 2) / 3) := by
  induction d using base64Encode.induct with
  | case1 => rfl
  | case2 b1 => simp [base64Encode]
  | case3 b1 b2 => simp [base64Encode]
  | case4 b1 b2 b3 rest ih =>
    simp only [base64Encode, List.length_cons, ih]
    omega

theorem base64_stored_ne_raw (d : List Nat) (hd : d ≠ []) :
    strToBytes (String.mk (base64Encode d)) ≠ d := by
  intro he
  have hlen := congrArg List.length he
  have h1 : (strToBytes (String.mk (base64Encode d))).length = (base64Encode d).length :=
    asciiBytes_length (base64Encode d) (base64_ascii d)
  rw [h1, base64_length d] at hlen
  have hpos : 0 < d.length := List.length_pos.mpr hd
  omega

/-- Counterexample to claim C10 as stated: for an empty binary file the
base64 encoding is the empty string, so the stored checksum equals the
checksum of the bytes of the stored string — the claimed inequality fails
for this binary entry. -/
theorem c10_binary_checksum_counterexample :
    (generateBinaryBundle [("empty.bin", [])]).files = [("empty.bin", "")] ∧
    (generateBinaryBundle [("empty.bin", [])]).checksums =
      [("empty.bin", checksum (strToBytes ""))] :=
  ⟨rfl, rfl⟩

/-- Claim C10 (amended): for JS and CSS bundles, Checksums holds the hex
SHA-256 of exactly the stored minified string; for binary bundles, Files
holds the base64 encoding while Checksums holds the hex SHA-256 of the
raw pre-encoding bytes, and whenever the file bytes are non-empty the
stored string differs from those raw bytes (for an empty file the two
coincide, base64 of empty being empty). -/
theorem c10_bundle_checksums :
    (∀ (minifyJS : String → String) (bundleFiles : List (String × List String))
        (prefixes suffixes : List (String × String)) (k v : String),
      lookupAssoc (generateJSBundle minifyJS bundleFiles prefixes suffixes).files k = some v →
      lookupAssoc (generateJSBundle minifyJS bundleFiles prefixes suffixes).checksums k =
        some (checksum (strToBytes v))) ∧
    (∀ (minifyCSS : String → String) (themes : List (String × List String)) (k v : String),
      lookupAssoc (generateCSSBundle minifyCSS themes).files k = some v →
      lookupAssoc (generateCSSBundle minifyCSS themes).checksums k =
        some (checksum (strToBytes v))) ∧
    (∀ (srcFiles : List (String × List Nat)) (k : String) (p : String × List Nat),
      findPair srcFiles k = some p →
      lookupAssoc (generateBinaryBundle srcFiles).files k =
          some (String.mk (base64Encode p.2)) ∧
      lookupAssoc (generateBinaryBundle srcFiles).checksums k = some (checksum p.2)) ∧
    (∀ d : List Nat, d ≠ [] → strToBytes (String.mk (base64Encode d)) ≠ d) := by
  refine ⟨?_, ?_, ?_, fun d hd => base64_stored_ne_raw d hd⟩
  · intro minifyJS bundleFiles prefixes suffixes k v hv
    simp only [generateJSBundle] at hv ⊢
    rw [lookupAssoc_map bundleFiles
      (fun p => minifyJS (lookupD prefixes p.1 ++ concatFiles p.2 ++ lookupD suffixes p.1)) k]
      at hv
    rw [lookupAssoc_map bundleFiles
      (fun p => checksum (strToBytes
        (minifyJS (lookupD prefixes p.1 ++ concatFiles p.2 ++ lookupD suffixes p.1)))) k]
    cases hf : findPair bundleFiles k with
    | none => rw [hf] at hv; exact Option.noConfusion hv
    | some p =>
      rw [hf] at hv
      have hv2 := Option.some.inj hv
      exact congrArg (fun s => some (checksum (strToBytes s))) hv2
  · intro minifyCSS themes k v hv
    simp only [generateCSSBundle] at hv ⊢
    rw [lookupAssoc_map themes (fun p => minifyCSS (concatFiles p.2)) k] at hv
    rw [lookupAssoc_map themes (fun p => checksum (strToBytes (minifyCSS (concatFiles p.2)))) k]
    cases hf : findPair themes k with
    | none => rw [hf] at hv; exact Option.noConfusion hv
    | some p =>
      rw [hf] at hv
      have hv2 := Option.some.inj hv
      exact congrArg (fun s => some (checksum (strToBytes s))) hv2
  · intro srcFiles k p hp
    simp only [generateBinaryBundle]
    rw [lookupAssoc_map srcFiles (fun p => String.mk (base64Encode p.2)) k,
        lookupAssoc_map srcFiles (fun p => checksum p.2) k, hp]
    exact ⟨rfl, rfl⟩

/-- Witness for C10 at concrete bundles of each kind and a concrete
non-empty binary file. -/
theorem c10_bundle_checksums_witness :
    lookupAssoc (generateJSBundle (fun s => s) [("app", ["x"])] [] []).checksums "app" =
      some (checksum (strToBytes "x")) ∧
    lookupAssoc (generateCSSBundle (fun s => s) [("default", ["c"])]).checksums "default" =
      some (checksum (strToBytes "c")) ∧
    lookupAssoc (generateBinaryBundle [("a.png", [1, 2])]).checksums "a.png" =
      some (checksum [1, 2]) ∧
    strToBytes (String.mk (base64Encode [77])) ≠ [77] := by
  refine ⟨?_, ?_, ?_, c10_bundle_checksums.2.2.2 [77] (by decide)⟩
  · exact c10_bundle_checksums.1 (fun s => s) [("app", ["x"])] [] [] "app" "x" rfl
  · exact c10_bundle_checksums.2.1 (fun s => s) [("default", ["c"])] "default" "c" rfl
  · exact (c10_bundle_checksums.2.2.1 [("a.png", [1, 2])] "a.png" ("a.png", [1, 2]) rfl).2
